import Mathlib

/-!
Verification of the Gas Town merge-queue integration-branch subsystem
(`gt mq integration create / status / land`), embedded shallowly from the
Go sources in `internal/cmd` (mq integration commands) and, where the
`internal/beads` / `internal/git` packages are not part of the sources,
modelled from the specification and cross-checked against the package
tests that are part of the sources.

Conventions:
- Go `(T, error)` returns are embedded as `Except Unit T` (the error payload
  is irrelevant to control flow) or as `Option T`.
- Machine `int` values are embedded as `Int`.
- Side-effecting git / issue-store calls are embedded as an explicit world
  record holding the result each call would return, plus an event trace
  recording which mutating calls the command performs, in order.
-/

namespace Gastown

/-!
String primitives. The embedding re-implements the handful of string
operations the Go code uses (`strings.Contains`, `HasPrefix`, `HasSuffix`,
`TrimSpace`, `TrimPrefix`, `Split`, `Join`, `Replace`, `ToLower`) by
structural recursion over the character list, so that every definition in
this file evaluates by kernel reduction on concrete inputs.
-/

/-- Embeds Go `strings.HasPrefix`. -/
def startsWithStr (s p : String) : Bool :=
  p.data.isPrefixOf s.data

/-- Embeds Go `strings.HasSuffix`. -/
def endsWithStr (s p : String) : Bool :=
  p.data.reverse.isPrefixOf s.data.reverse

/-- Substring test, embedding Go `strings.Contains`. -/
def containsSub (s pat : String) : Bool :=
  go s.data
where
  go : List Char → Bool
    | [] => pat.data.isPrefixOf []
    | c :: cs => pat.data.isPrefixOf (c :: cs) || go cs

/-- Embeds Go `strings.TrimPrefix`. -/
def trimPrefixStr (s p : String) : String :=
  if startsWithStr s p then String.mk (s.data.drop p.data.length) else s

/-- The ASCII whitespace class of Go `unicode.IsSpace`, as used by
`strings.TrimSpace` (`' '`, `\t`, `\n`, `\v`, `\f`, `\r`). -/
def goTrimSpaceChar (c : Char) : Bool :=
  c = ' ' || c = '\t' || c = '\n' || c = Char.ofNat 11 || c = Char.ofNat 12 || c = '\r'

/-- Embeds Go `strings.TrimSpace` (over its ASCII whitespace class). -/
def trimStr (s : String) : String :=
  String.mk (((s.data.dropWhile goTrimSpaceChar).reverse.dropWhile goTrimSpaceChar).reverse)

/-- ASCII lower-casing of one character, embedding the effect of Go
`strings.ToLower` on the ASCII field keys this code compares. -/
def charToLower (c : Char) : Char :=
  if c.toNat ≥ 65 && c.toNat ≤ 90 then Char.ofNat (c.toNat + 32) else c

/-- Embeds Go `strings.ToLower` over ASCII. -/
def toLowerStr (s : String) : String :=
  String.mk (s.data.map charToLower)

/-- Splitting on the newline character, embedding Go
`strings.Split(s, "\n")`: an empty input yields one empty field. -/
def splitLinesGo : List Char → List Char → List String
  | [], acc => [String.mk acc.reverse]
  | c :: cs, acc =>
      if c = '\n' then String.mk acc.reverse :: splitLinesGo cs []
      else splitLinesGo cs (c :: acc)

/-- The lines of a string, per Go `strings.Split(s, "\n")`. -/
def splitLinesStr (s : String) : List String :=
  splitLinesGo s.data []

/-- Embeds Go `strings.Join(lines, "\n")`. -/
def joinLinesStr (lines : List String) : String :=
  String.mk (go lines)
where
  go : List String → List Char
    | [] => []
    | [x] => x.data
    | x :: y :: rest => x.data ++ '\n' :: go (y :: rest)

/-- Replacement of every occurrence of a non-empty pattern, embedding Go
`strings.Replace(s, pat, repl, -1)`; the fuel argument is the input length,
which bounds the number of steps because each step consumes at least one
character of the input. -/
def replaceGo (pat repl : List Char) : Nat → List Char → List Char
  | 0, l => l
  | _ + 1, [] => []
  | fuel + 1, c :: cs =>
      if !pat.isEmpty && pat.isPrefixOf (c :: cs) then
        repl ++ replaceGo pat repl fuel ((c :: cs).drop pat.length)
      else c :: replaceGo pat repl fuel cs

/-- Embeds Go `strings.Replace(s, pat, repl, -1)` for non-empty patterns. -/
def replaceStr (s pat repl : String) : String :=
  String.mk (replaceGo pat.data repl.data s.data.length s.data)

/-- The character class matched by `\s` in Go regular expressions
(`[\t\n\f\r ]`). -/
def goSpace (c : Char) : Bool :=
  c = ' ' || c = '\t' || c = '\n' || c = Char.ofNat 12 || c = '\r'

/-- An issue record, embedding the `beads.Issue` fields the merge-queue core
reads. The Go field `Type` is embedded as `IssueType` because `Type` is a
Lean keyword. -/
structure Issue where
  ID : String
  Title : String
  IssueType : String
  Status : String
  Parent : String
  Description : String
  Labels : List String
  deriving Repr, DecidableEq

/-- Modelled from the spec: `beads.HasLabel` tests membership of a label in
the issue label set (its behavior is pinned by `TestMRFilteringByLabel` in
`internal/cmd/mq_test.go`). -/
def HasLabel (issue : Issue) (label : String) : Bool :=
  issue.Labels.contains label

/-- Modelled from the spec: a `key: value` line match for the structured
one-line description fields of section 4.1 — the key is recognized
case-insensitively at the start of the trimmed line, and the value is the
trimmed remainder. -/
def fieldLineValue (key line : String) : Option String :=
  let t := trimStr line
  if startsWithStr (toLowerStr t) (key ++ ":") then
    some (trimStr (String.mk (t.data.drop (key.data.length + 1))))
  else
    none

/-- Modelled from the spec: field lookup returns the trimmed value of the
first matching line of the description, or empty if absent. -/
def getDescriptionField (key desc : String) : String :=
  match (splitLinesStr desc).findSome? (fieldLineValue key) with
  | some v => v
  | none => ""

/-- Modelled from the spec: `beads.GetIntegrationBranchField` (behavior
pinned by `TestGetIntegrationBranchField` in the sources). -/
def GetIntegrationBranchField (desc : String) : String :=
  getDescriptionField "integration_branch" desc

/-- Modelled from the spec: `beads.GetBaseBranchField` (behavior pinned by
`TestGetBaseBranchField` in the sources). -/
def GetBaseBranchField (desc : String) : String :=
  getDescriptionField "base_branch" desc

/-- Modelled from the spec: add-or-replace of a structured description
field — any prior line with the key is removed, and the field is prefixed
on its own line (behavior pinned by `TestAddIntegrationBranchField` and
`TestAddBaseBranchField` in the sources). -/
def addDescriptionField (key desc value : String) : String :=
  let fieldLine := key ++ ": " ++ value
  if desc = "" then fieldLine
  else
    let kept := (splitLinesStr desc).filter (fun l => (fieldLineValue key l).isNone)
    if kept.isEmpty then fieldLine
    else fieldLine ++ "\n" ++ joinLinesStr kept

/-- Modelled from the spec: `beads.AddIntegrationBranchField`. -/
def AddIntegrationBranchField (desc branchName : String) : String :=
  addDescriptionField "integration_branch" desc branchName

/-- Modelled from the spec: `beads.AddBaseBranchField`. -/
def AddBaseBranchField (desc baseBranch : String) : String :=
  addDescriptionField "base_branch" desc baseBranch

/-- Modelled from the spec: `beads.ExtractEpicPrefix` — the characters of
the epic id before the first `-`, or the whole id if none (behavior pinned
by `TestExtractEpicPrefix` in the sources). -/
def ExtractEpicPrefix (epicID : String) : String :=
  String.mk (epicID.data.takeWhile (fun c => !(c = '-')))

/-- Modelled from the spec: the default integration branch template
`beads.DefaultIntegrationBranchTemplate`. -/
def DefaultIntegrationBranchTemplate : String := "integration/{epic}"

/-- Modelled from the spec: `beads.BuildIntegrationBranchName` — an empty
template means the default; expansion substitutes the epic id for `{epic}`
and its leading id segment for the second placeholder (behavior pinned by
`TestBuildIntegrationBranchName` in the sources). -/
def BuildIntegrationBranchName (template epicID : String) : String :=
  let t := if template = "" then DefaultIntegrationBranchTemplate else template
  replaceStr (replaceStr t "{epic}" epicID) "\x7bprefix\x7d" (ExtractEpicPrefix epicID)

/-- Merge-request fields parsed out of an issue description. -/
structure MRFields where
  Branch : String
  Target : String
  deriving Repr, DecidableEq

/-- Modelled from the spec: `beads.ParseMRFields` — an MR description
encodes `branch: <source>` and `target: <branch>` one-line fields; an issue
whose description carries neither yields no fields (behavior pinned by
`TestFilterMRsByTarget_NoMRFields` in the sources). -/
def ParseMRFields (issue : Issue) : Option MRFields :=
  let branch := getDescriptionField "branch" issue.Description
  let target := getDescriptionField "target" issue.Description
  if branch = "" && target = "" then none
  else some ⟨branch, target⟩

/-- The branch-name validation error cases of `validateBranchName`. -/
inductive BranchNameErr where
  | empty
  | invalidChars
  | lockSuffix
  | slashBoundary
  | dotBoundary
  | doubleSlash
  deriving Repr, DecidableEq

/-- Embeds the regular expression `invalidBranchCharsRegex`, which is
`[~^:\s\\]|\.\.|@\{` — a match anywhere in the string. -/
def invalidBranchCharsMatch (b : String) : Bool :=
  b.data.any (fun c => c = '~' || c = '^' || c = ':' || goSpace c || c = '\\')
    || containsSub b ".."
    || containsSub b "@\x7b"

/-- Embeds `validateBranchName` from the mq integration command source:
empty name, the invalid-character regular expression, the `.lock` suffix,
leading or trailing `/` or `.`, and consecutive slashes are rejected in
that order. -/
def validateBranchName (branchName : String) : Option BranchNameErr :=
  if branchName = "" then some .empty
  else if invalidBranchCharsMatch branchName then some .invalidChars
  else if endsWithStr branchName ".lock" then some .lockSuffix
  else if startsWithStr branchName "/" || endsWithStr branchName "/" then some .slashBoundary
  else if startsWithStr branchName "." || endsWithStr branchName "." then some .dotBoundary
  else if containsSub branchName "//" then some .doubleSlash
  else none

/-- Embeds `isReadyToLand`: ready exactly when the branch is ahead of main,
the epic has children, all children are closed, and no MRs are pending. -/
def isReadyToLand (aheadCount childrenTotal childrenClosed pendingMRCount : Int) : Bool :=
  decide (aheadCount > 0)
    && decide (childrenTotal > 0)
    && childrenTotal == childrenClosed
    && pendingMRCount == 0

/-- Embeds `filterMRsByTarget`: keep the merge requests whose parsed
`target` field equals the given branch. -/
def filterMRsByTarget (mrs : List Issue) (targetBranch : String) : List Issue :=
  mrs.filter (fun mr =>
    match ParseMRFields mr with
    | some fields => fields.Target == targetBranch
    | none => false)

/-- Modelled from the spec: the issue-store `list` operation of section 6.1
filters by the `type` field and the `status` field; an empty filter or
status `all` matches everything. The `beads.List` implementation is not
part of the sources; its callers in the mq integration command pass these
two filters. -/
def bdListIssues (issues : List Issue) (ty status : String) : List Issue :=
  issues.filter (fun i =>
    (ty == "" || i.IssueType == ty)
      && (status == "" || status == "all" || i.Status == status))

/-- Embeds `findOpenMRsForIntegration` over a modelled issue store: list
issues with type `merge-request` and status `open`, then filter by parsed
`target` field. -/
def findOpenMRsForIntegration (issues : List Issue) (targetBranch : String) : List Issue :=
  filterMRsByTarget (bdListIssues issues "merge-request" "open") targetBranch

/-- Embeds the merged/pending merge-request partition of
`runMqIntegrationStatus`: list issues with type `merge-request` across all
statuses, keep those whose parsed `target` matches, and split on
`status == closed`. -/
def statusMRPartition (issues : List Issue) (targetBranch : String) :
    List Issue × List Issue :=
  let relevant := (bdListIssues issues "merge-request" "").filter (fun mr =>
    match ParseMRFields mr with
    | some fields => fields.Target == targetBranch
    | none => false)
  (relevant.filter (fun mr => mr.Status == "closed"),
   relevant.filter (fun mr => !(mr.Status == "closed")))

/-- The mutating external calls the Land command can perform, in the order
it performs them. Read-only calls (issue show, existence checks, the
verification diff) are not traced. -/
inductive LandEvent where
  | fetchBranch
  | fetch
  | createWorktree
  | pull
  | merge
  | abortMerge
  | runTests
  | push
  | deleteRemote
  | deleteLocal
  | closeEpic
  | removeWorktree
  deriving Repr, DecidableEq

/-- The fatal error cases of `runMqIntegrationLand`, in source order. -/
inductive LandErr where
  | epicShowErr
  | notAnEpic
  | branchCheckErr
  | remoteCheckErr
  | branchMissing
  | fetchBranchErr
  | mrListErr
  | pendingMRs
  | fetchErr
  | worktreeErr
  | mergeFailed
  | testsFailed
  | emptyMerge
  | pushFailed
  deriving Repr, DecidableEq

/-- The command-line flags of `gt mq integration land`. -/
structure LandFlags where
  force : Bool
  skipTests : Bool
  dryRun : Bool
  deriving Repr, DecidableEq

/-- The results the external world (git, the issue store, the test command)
would return to each call Land makes, embedded as one record so the command
becomes a pure function of it. -/
structure LandWorld where
  showEpic : Option Issue
  branchExists : Except Unit Bool
  remoteBranchExists : Except Unit Bool
  fetchBranchOk : Bool
  listMRs : Except Unit (List Issue)
  fetchOk : Bool
  worktreeOk : Bool
  pullOk : Bool
  mergeOk : Bool
  testCommand : String
  testsOk : Bool
  diffOutput : Except Unit String
  pushOk : Bool
  deleteRemoteOk : Bool
  deleteLocalOk : Bool
  closeOk : Bool
  deriving Repr

/-- The observable outcome of a Land invocation: the returned error (none
means success) and the trace of mutating calls performed. -/
structure LandOutcome where
  result : Option LandErr
  trace : List LandEvent
  deriving Repr, DecidableEq

/-- The push and ordered-cleanup tail of Land (steps 6 to 8 of the source):
push the base branch, then delete the remote integration branch, then the
local one, then close the epic; the three cleanup failures only print
warnings. The disposable worktree cleanup is deferred, so every exit
records `removeWorktree`. -/
def landPushAndCleanup (w : LandWorld) (pre : List LandEvent) : LandOutcome :=
  if !w.pushOk then ⟨some .pushFailed, pre ++ [.push, .removeWorktree]⟩
  else
    ⟨none, pre ++ [.push, .deleteRemote, .deleteLocal, .closeEpic, .removeWorktree]⟩

/-- The in-worktree phase of Land (steps 4 to the empty-merge guard of the
source): pull (non-fatal), merge `--no-ff` (abort on failure), run the
configured test command unless skipped, then verify the merge brought
changes — an empty `HEAD~1..HEAD` diff is fatal and nothing further runs,
while a failing diff command is ignored. -/
def landInWorktree (fl : LandFlags) (w : LandWorld) (pre : List LandEvent) : LandOutcome :=
  let pre := pre ++ [.pull]
  if !w.mergeOk then ⟨some .mergeFailed, pre ++ [.merge, .abortMerge, .removeWorktree]⟩
  else
    let pre := pre ++ [.merge]
    let runsTests := !fl.skipTests && !(w.testCommand == "")
    if runsTests && !w.testsOk then ⟨some .testsFailed, pre ++ [.runTests, .removeWorktree]⟩
    else
      let pre := if runsTests then pre ++ [.runTests] else pre
      match w.diffOutput with
      | .ok out =>
          if trimStr out = "" then ⟨some .emptyMerge, pre ++ [.removeWorktree]⟩
          else landPushAndCleanup w pre
      | .error _ => landPushAndCleanup w pre

/-- The phase of Land from the open-MR audit on (steps 3 to 8 of the
source): audit open MRs targeting the branch (fatal unless forced), stop
with success if this is a dry run, then fetch, create the disposable
worktree and continue inside it. -/
def landFromAudit (fl : LandFlags) (w : LandWorld) (branchName : String)
    (pre : List LandEvent) : LandOutcome :=
  match w.listMRs with
  | .error _ => ⟨some .mrListErr, pre⟩
  | .ok mrs =>
      if !(filterMRsByTarget mrs branchName).isEmpty && !fl.force then
        ⟨some .pendingMRs, pre⟩
      else if fl.dryRun then ⟨none, pre⟩
      else if !w.fetchOk then ⟨some .fetchErr, pre ++ [.fetch]⟩
      else if !w.worktreeOk then ⟨some .worktreeErr, pre ++ [.fetch]⟩
      else landInWorktree fl w (pre ++ [.fetch, .createWorktree])

/-- The integration branch name Land resolves for an epic: the
`integration_branch` metadata stored in the description, else the default
template applied to the epic id. -/
def landBranchName (desc epicID : String) : String :=
  let stored := GetIntegrationBranchField desc
  if stored = "" then BuildIntegrationBranchName DefaultIntegrationBranchTemplate epicID
  else stored

/-- Embeds `runMqIntegrationLand` proper: verify the epic, confirm the
integration branch exists locally or on origin (fetching it when
remote-only), then continue with the audit phase. -/
def runMqIntegrationLand (epicID : String) (fl : LandFlags) (w : LandWorld) : LandOutcome :=
  match w.showEpic with
  | none => ⟨some .epicShowErr, []⟩
  | some epic =>
      if !(epic.IssueType == "epic") then ⟨some .notAnEpic, []⟩
      else
        let branchName := landBranchName epic.Description epicID
        match w.branchExists with
        | .error _ => ⟨some .branchCheckErr, []⟩
        | .ok localExists =>
            if localExists then landFromAudit fl w branchName []
            else
              match w.remoteBranchExists with
              | .error _ => ⟨some .remoteCheckErr, []⟩
              | .ok remoteExists =>
                  if !remoteExists then ⟨some .branchMissing, []⟩
                  else if !w.fetchBranchOk then ⟨some .fetchBranchErr, [.fetchBranch]⟩
                  else landFromAudit fl w branchName [.fetchBranch]

/-- The mutating external calls the Create command can perform. -/
inductive CreateEvent where
  | fetch
  | createBranch
  | push
  | deleteBranch
  | updateEpic
  deriving Repr, DecidableEq

/-- The fatal error cases of `runMqIntegrationCreate`, in source order. -/
inductive CreateErr where
  | epicShowErr
  | notAnEpic
  | invalidBranchName
  | gitInitErr
  | branchCheckErr
  | branchExistsLocally
  | branchExistsOnOrigin
  | fetchErr
  | createErr
  | pushErr
  deriving Repr, DecidableEq

/-- The results the external world would return to each call Create makes.
`templateResolved` is the template returned by
`getIntegrationBranchTemplate` (CLI flag, rig config, or default). The
remote existence probe is an `Except`: per the `BranchChecker` interface
(whose mock in the sources returns `false` alongside any error), a failing
probe reports the branch as absent. -/
structure CreateWorld where
  showEpic : Option Issue
  templateResolved : String
  gitOk : Bool
  branchExists : Except Unit Bool
  remoteBranchExists : Except Unit Bool
  fetchOk : Bool
  createBranchOk : Bool
  pushOk : Bool
  updateOk : Bool
  deriving Repr

/-- The observable outcome of a Create invocation: the returned error, the
trace of mutating calls, and the epic description actually written (none
when the metadata update was not performed or failed). -/
structure CreateOutcome where
  result : Option CreateErr
  trace : List CreateEvent
  written : Option String
  deriving Repr, DecidableEq

/-- Embeds the base-ref resolution of Create: default `origin/main`, else
`origin/` + the flag with any `origin/` already present stripped. -/
def resolveBaseRef (baseBranchFlag : String) : String :=
  if baseBranchFlag = "" then "origin/main"
  else "origin/" ++ trimPrefixStr baseBranchFlag "origin/"

/-- Embeds the display form of the base branch: the resolved base ref with
its `origin/` stripped. -/
def resolveBaseDisplay (baseBranchFlag : String) : String :=
  trimPrefixStr (resolveBaseRef baseBranchFlag) "origin/"

/-- Embeds the epic metadata update of Create: add the
`integration_branch` field, and also the `base_branch` field when a base
override flag was given. -/
def createNewDescription (desc branchName baseBranchFlag : String) : String :=
  let newDesc := AddIntegrationBranchField desc branchName
  if !(baseBranchFlag == "") then
    AddBaseBranchField newDesc (resolveBaseDisplay baseBranchFlag)
  else newDesc

/-- Embeds `runMqIntegrationCreate`: verify the epic, build and validate
the branch name, reject a branch already present locally or on origin (a
failing remote probe only warns), fetch, create the branch from the
resolved base ref, push it (deleting the local branch on push failure),
and finally annotate the epic description (update failure only warns). -/
def runMqIntegrationCreate (epicID baseBranchFlag : String) (w : CreateWorld) : CreateOutcome :=
  match w.showEpic with
  | none => ⟨some .epicShowErr, [], none⟩
  | some epic =>
      if !(epic.IssueType == "epic") then ⟨some .notAnEpic, [], none⟩
      else
        let branchName := BuildIntegrationBranchName w.templateResolved epicID
        if (validateBranchName branchName).isSome then ⟨some .invalidBranchName, [], none⟩
        else if !w.gitOk then ⟨some .gitInitErr, [], none⟩
        else
          match w.branchExists with
          | .error _ => ⟨some .branchCheckErr, [], none⟩
          | .ok localExists =>
              if localExists then ⟨some .branchExistsLocally, [], none⟩
              else
                let remoteExists :=
                  match w.remoteBranchExists with
                  | .error _ => false
                  | .ok v => v
                if remoteExists then ⟨some .branchExistsOnOrigin, [], none⟩
                else if !w.fetchOk then ⟨some .fetchErr, [.fetch], none⟩
                else if !w.createBranchOk then
                  ⟨some .createErr, [.fetch, .createBranch], none⟩
                else if !w.pushOk then
                  ⟨some .pushErr, [.fetch, .createBranch, .push, .deleteBranch], none⟩
                else
                  let newDesc := createNewDescription epic.Description branchName baseBranchFlag
                  if newDesc == epic.Description then
                    ⟨none, [.fetch, .createBranch, .push], none⟩
                  else
                    ⟨none, [.fetch, .createBranch, .push, .updateEpic],
                     if w.updateOk then some newDesc else none⟩

/-- The branch existence oracle of the MR target resolver, embedding the
`beads.BranchChecker` interface. -/
structure BranchChecker where
  BranchExists : String → Except Unit Bool
  RemoteBranchExists : String → String → Except Unit Bool

/-- Modelled from the spec: the recursion of `beads.DetectIntegrationBranch`
(section 4.3; the implementation is not part of the sources, only its tests
are). The fuel argument embeds the depth bound: the walk gives up with an
empty result once the depth exceeds 10, so at most 11 issues are
inspected. At an epic, the candidate branch is its stored
`integration_branch` metadata, else the default template applied to its
id; a candidate verifies if it exists locally (local check errors are
fatal) or on origin (remote check errors are non-fatal); an unverified
candidate continues the walk at the parent. -/
def detectGo (shower : String → Option Issue) (checker : BranchChecker) :
    Nat → String → Except Unit String
  | 0, _ => .ok ""
  | fuel + 1, id =>
      match shower id with
      | none => .error ()
      | some issue =>
          let next : Except Unit String :=
            if issue.Parent = "" then .ok ""
            else detectGo shower checker fuel issue.Parent
          if issue.IssueType = "epic" then
            let stored := GetIntegrationBranchField issue.Description
            let candidate :=
              if stored = "" then BuildIntegrationBranchName "" issue.ID else stored
            match checker.BranchExists candidate with
            | .error _ => .error ()
            | .ok true => .ok candidate
            | .ok false =>
                match checker.RemoteBranchExists "origin" candidate with
                | .ok true => .ok candidate
                | _ => next
          else next

/-- Modelled from the spec: `beads.DetectIntegrationBranch` starts the walk
at the originating issue with the full depth budget (10 parent hops beyond
the origin). -/
def DetectIntegrationBranch (shower : String → Option Issue) (checker : BranchChecker)
    (issueID : String) : Except Unit String :=
  detectGo shower checker 11 issueID

/-- One parent hop of the issue graph: the parent recorded on the issue, or
empty when the issue is missing. -/
def stepParent (shower : String → Option Issue) (id : String) : String :=
  match shower id with
  | some issue => issue.Parent
  | none => ""

/-- The issue id reached after `n` parent hops from `id`. -/
def chainWalk (shower : String → Option Issue) (id : String) : Nat → String
  | 0 => id
  | n + 1 => chainWalk shower (stepParent shower id) n

/-- The branch-name validity predicate in the words of the specification
(section 4.1): non-empty; no character from `~ ^ : \` or whitespace (the
whitespace class of the source regular expression); neither substring `..`
nor `@x7b`; no `.lock` suffix; no `/` or `.` at either boundary; no `//`.
This is the claim side of the refinement, stated separately from the
source embedding `validateBranchName`. -/
def claimValidBranchName (b : String) : Bool :=
  !(b == "")
    && b.data.all (fun c => !(c = '~' || c = '^' || c = ':' || c = '\\' || goSpace c))
    && !containsSub b ".."
    && !containsSub b "@\x7b"
    && !endsWithStr b ".lock"
    && !startsWithStr b "/"
    && !endsWithStr b "/"
    && !startsWithStr b "."
    && !endsWithStr b "."
    && !containsSub b "//"

end Gastown

namespace Gastown

/-- C4: `isReadyToLand` returns true exactly when the four readiness
clauses hold — positive ahead count, at least one child, all children
closed, and zero pending merge requests; failing any one clause yields
false. -/
theorem isReadyToLand_iff_four_clauses
    (aheadCount childrenTotal childrenClosed pendingMRCount : Int) :
    isReadyToLand aheadCount childrenTotal childrenClosed pendingMRCount = true ↔
      (aheadCount > 0 ∧ childrenTotal > 0 ∧ childrenClosed = childrenTotal ∧
        pendingMRCount = 0) := by
  simp only [isReadyToLand, Bool.and_eq_true, decide_eq_true_eq, beq_iff_eq]
  constructor
  · rintro ⟨⟨⟨h1, h2⟩, h3⟩, h4⟩
    exact ⟨h1, h2, h3.symm, h4⟩
  · rintro ⟨h1, h2, h3, h4⟩
    exact ⟨⟨⟨h1, h2⟩, h3.symm⟩, h4⟩

theorem all_not_eq_not_any (p : Char → Bool) (l : List Char) :
    l.all (fun c => !p c) = !l.any p := by
  induction l with
  | nil => rfl
  | cons c cs ih => cases h : p c <;> simp [List.all_cons, List.any_cons, h, ih]

/-- An epic issue fixture with an empty description. -/
def epicIssue0 : Issue :=
  { ID := "gt-e", Title := "Auth epic", IssueType := "epic", Status := "open", Parent := "",
    Description := "", Labels := [] }

/-- C5: branch-name validation accepts a string exactly when it is
non-empty, has no character from `~ ^ : \` or the whitespace class, has
neither `..` nor `@x7b` as a substring, does not end in `.lock`, does not
start or end with `/` or `.`, and has no `//`; and when validation rejects
the expanded name, Create fails with the invalid-name error before any git
side effect. -/
theorem validateBranchName_accepts_iff_spec :
    (∀ b : String, validateBranchName b = none ↔ claimValidBranchName b = true) ∧
    (∀ (epicID baseBranchFlag : String) (w : CreateWorld) (epic : Issue),
      w.showEpic = some epic → epic.IssueType = "epic" →
      validateBranchName (BuildIntegrationBranchName w.templateResolved epicID) ≠ none →
      runMqIntegrationCreate epicID baseBranchFlag w = ⟨some .invalidBranchName, [], none⟩) := by
  constructor
  · intro b
    have hperm : (fun c : Char => !(c = '~' || c = '^' || c = ':' || c = '\\' || goSpace c))
        = (fun c : Char => !(c = '~' || c = '^' || c = ':' || goSpace c || c = '\\')) := by
      funext c
      by_cases h1 : c = '~' <;> by_cases h2 : c = '^' <;> by_cases h3 : c = ':' <;>
        by_cases h4 : c = '\\' <;> cases h5 : goSpace c <;> simp [h1, h2, h3, h4, h5]
    simp only [validateBranchName, claimValidBranchName, invalidBranchCharsMatch, hperm,
      all_not_eq_not_any (fun c : Char => c = '~' || c = '^' || c = ':' || goSpace c || c = '\\')]
    split_ifs with h0 h1 h2 h3 h4 h5
    case _ => simp [h0]
    case _ =>
      apply iff_of_false (by simp)
      simp only [Bool.or_eq_true] at h1
      rcases h1 with (h | h) | h <;>
        · simp only [h, Bool.not_true, Bool.and_false, Bool.false_and]
          simp
    case _ =>
      apply iff_of_false (by simp)
      simp only [h2, Bool.not_true, Bool.and_false, Bool.false_and]
      simp
    case _ =>
      apply iff_of_false (by simp)
      simp only [Bool.or_eq_true] at h3
      rcases h3 with h | h <;>
        · simp only [h, Bool.not_true, Bool.and_false, Bool.false_and]
          simp
    case _ =>
      apply iff_of_false (by simp)
      simp only [Bool.or_eq_true] at h4
      rcases h4 with h | h <;>
        · simp only [h, Bool.not_true, Bool.and_false, Bool.false_and]
          simp
    case _ =>
      apply iff_of_false (by simp)
      simp only [h5, Bool.not_true, Bool.and_false, Bool.false_and]
      simp
    case _ =>
      have hb : (b == "") = false := by simp [h0]
      simp only [Bool.or_eq_true, not_or, Bool.not_eq_true] at h1 h3 h4
      simp only [Bool.not_eq_true] at h2 h5
      simp only [hb, h1.1.1, h1.1.2, h1.2, h2, h3.1, h3.2, h4.1, h4.2, h5,
        Bool.not_false, Bool.and_self, Bool.and_true, Bool.true_and]
  · intro epicID baseBranchFlag w epic hshow hty hval
    have hsome : (validateBranchName (BuildIntegrationBranchName w.templateResolved epicID)).isSome
        = true := by
      rcases hvn : validateBranchName (BuildIntegrationBranchName w.templateResolved epicID) with
        _ | v
      · exact absurd hvn hval
      · rfl
    simp [runMqIntegrationCreate, hshow, hty, hsome]

/-- A Create world whose resolved template expands to an invalid branch
name (it contains `..`). -/
def invalidTemplateCreateWorld : CreateWorld :=
  { showEpic := some epicIssue0, templateResolved := "bad..template", gitOk := true,
    branchExists := .ok false, remoteBranchExists := .ok false, fetchOk := true,
    createBranchOk := true, pushOk := true, updateOk := true }

theorem validateBranchName_accepts_iff_spec_witness :
    (validateBranchName "integration/gt-auth-epic" = none ↔
      claimValidBranchName "integration/gt-auth-epic" = true) ∧
    runMqIntegrationCreate "gt-e" "" invalidTemplateCreateWorld =
      ⟨some .invalidBranchName, [], none⟩ :=
  ⟨validateBranchName_accepts_iff_spec.1 "integration/gt-auth-epic",
   validateBranchName_accepts_iff_spec.2 "gt-e" "" invalidTemplateCreateWorld epicIssue0
     rfl rfl (by decide)⟩

/-- C2: when every step of Land up to the verification diff succeeds and
the diff output is empty after trimming, Land fails with the empty-merge
error: nothing is pushed, neither the remote nor the local integration
branch is deleted, the epic is not closed, and the disposable worktree is
still removed. -/
theorem land_empty_merge_guard (epicID : String) (fl : LandFlags) (w : LandWorld)
    (epic : Issue) (mrs : List Issue) (out : String)
    (hshow : w.showEpic = some epic)
    (hty : epic.IssueType = "epic")
    (hbr : w.branchExists = Except.ok true ∨
      (w.branchExists = Except.ok false ∧ w.remoteBranchExists = Except.ok true ∧
        w.fetchBranchOk = true))
    (hmrs : w.listMRs = Except.ok mrs)
    (hopen : filterMRsByTarget mrs (landBranchName epic.Description epicID) = [] ∨
      fl.force = true)
    (hdry : fl.dryRun = false)
    (hfetch : w.fetchOk = true)
    (hwt : w.worktreeOk = true)
    (hmerge : w.mergeOk = true)
    (htests : fl.skipTests = true ∨ w.testCommand = "" ∨ w.testsOk = true)
    (hdiff : w.diffOutput = Except.ok out)
    (hout : trimStr out = "") :
    (runMqIntegrationLand epicID fl w).result = some LandErr.emptyMerge ∧
    LandEvent.push ∉ (runMqIntegrationLand epicID fl w).trace ∧
    LandEvent.deleteRemote ∉ (runMqIntegrationLand epicID fl w).trace ∧
    LandEvent.deleteLocal ∉ (runMqIntegrationLand epicID fl w).trace ∧
    LandEvent.closeEpic ∉ (runMqIntegrationLand epicID fl w).trace ∧
    LandEvent.removeWorktree ∈ (runMqIntegrationLand epicID fl w).trace := by
  rcases hbr with hb | ⟨hb1, hb2, hb3⟩ <;>
    rcases hopen with ho | ho <;>
      rcases htests with ht | ht | ht <;>
        by_cases hsk : fl.skipTests = true <;>
          by_cases hcmd : w.testCommand = "" <;>
            simp_all [runMqIntegrationLand, landFromAudit, landInWorktree,
              landPushAndCleanup]

/-- The Land flags used by witness worlds that are not dry runs: no force,
tests skipped, no dry run. -/
def landFlagsPlain : LandFlags := ⟨false, true, false⟩

/-- A Land world in which everything succeeds but the verification diff
comes back empty. -/
def emptyMergeLandWorld : LandWorld :=
  { showEpic := some epicIssue0, branchExists := .ok true, remoteBranchExists := .ok false,
    fetchBranchOk := true, listMRs := .ok [], fetchOk := true, worktreeOk := true,
    pullOk := true, mergeOk := true, testCommand := "", testsOk := true,
    diffOutput := .ok "  ", pushOk := true, deleteRemoteOk := true,
    deleteLocalOk := true, closeOk := true }

theorem land_empty_merge_guard_witness :
    (runMqIntegrationLand "gt-e" landFlagsPlain emptyMergeLandWorld).result =
      some LandErr.emptyMerge ∧
    LandEvent.push ∉ (runMqIntegrationLand "gt-e" landFlagsPlain emptyMergeLandWorld).trace ∧
    LandEvent.deleteRemote ∉
      (runMqIntegrationLand "gt-e" landFlagsPlain emptyMergeLandWorld).trace ∧
    LandEvent.deleteLocal ∉
      (runMqIntegrationLand "gt-e" landFlagsPlain emptyMergeLandWorld).trace ∧
    LandEvent.closeEpic ∉ (runMqIntegrationLand "gt-e" landFlagsPlain emptyMergeLandWorld).trace ∧
    LandEvent.removeWorktree ∈
      (runMqIntegrationLand "gt-e" landFlagsPlain emptyMergeLandWorld).trace :=
  land_empty_merge_guard "gt-e" landFlagsPlain emptyMergeLandWorld epicIssue0 [] "  "
    rfl rfl (Or.inl rfl) rfl (Or.inl rfl) rfl rfl rfl rfl (Or.inl rfl) rfl (by decide)

/-- C7: once Land completes the push of the base branch, the invocation
succeeds no matter what the cleanup calls return (their failures are
warnings only), and the trace ends with the push followed by the remote
branch delete, then the local delete, then the epic close, then the
worktree removal — remote before local. -/
theorem land_cleanup_order_and_warnings (epicID : String) (fl : LandFlags) (w : LandWorld)
    (epic : Issue) (mrs : List Issue)
    (hshow : w.showEpic = some epic)
    (hty : epic.IssueType = "epic")
    (hbr : w.branchExists = Except.ok true ∨
      (w.branchExists = Except.ok false ∧ w.remoteBranchExists = Except.ok true ∧
        w.fetchBranchOk = true))
    (hmrs : w.listMRs = Except.ok mrs)
    (hopen : filterMRsByTarget mrs (landBranchName epic.Description epicID) = [] ∨
      fl.force = true)
    (hdry : fl.dryRun = false)
    (hfetch : w.fetchOk = true)
    (hwt : w.worktreeOk = true)
    (hmerge : w.mergeOk = true)
    (htests : fl.skipTests = true ∨ w.testCommand = "" ∨ w.testsOk = true)
    (hdiff : ∀ out, w.diffOutput = Except.ok out → trimStr out ≠ "")
    (hpush : w.pushOk = true) :
    (runMqIntegrationLand epicID fl w).result = none ∧
    [LandEvent.push, LandEvent.deleteRemote, LandEvent.deleteLocal, LandEvent.closeEpic,
      LandEvent.removeWorktree].isSuffixOf (runMqIntegrationLand epicID fl w).trace = true := by
  cases hd : w.diffOutput with
  | error e =>
      rcases hbr with hb | ⟨hb1, hb2, hb3⟩ <;>
        rcases hopen with ho | ho <;>
          rcases htests with ht | ht | ht <;>
            by_cases hsk : fl.skipTests = true <;>
              by_cases hcmd : w.testCommand = "" <;>
                simp_all [runMqIntegrationLand, landFromAudit, landInWorktree,
                  landPushAndCleanup] <;> decide
  | ok out =>
      have hne := hdiff out hd
      rcases hbr with hb | ⟨hb1, hb2, hb3⟩ <;>
        rcases hopen with ho | ho <;>
          rcases htests with ht | ht | ht <;>
            by_cases hsk : fl.skipTests = true <;>
              by_cases hcmd : w.testCommand = "" <;>
                simp_all [runMqIntegrationLand, landFromAudit, landInWorktree,
                  landPushAndCleanup] <;> decide

/-- A Land world in which the push succeeds but every cleanup call fails. -/
def cleanupFailLandWorld : LandWorld :=
  { showEpic := some epicIssue0, branchExists := .ok true, remoteBranchExists := .ok false,
    fetchBranchOk := true, listMRs := .ok [], fetchOk := true, worktreeOk := true,
    pullOk := true, mergeOk := true, testCommand := "", testsOk := true,
    diffOutput := .ok " file.go | 2 +-", pushOk := true, deleteRemoteOk := false,
    deleteLocalOk := false, closeOk := false }

theorem land_cleanup_order_and_warnings_witness :
    (runMqIntegrationLand "gt-e" landFlagsPlain cleanupFailLandWorld).result = none ∧
    [LandEvent.push, LandEvent.deleteRemote, LandEvent.deleteLocal, LandEvent.closeEpic,
      LandEvent.removeWorktree].isSuffixOf
      (runMqIntegrationLand "gt-e" landFlagsPlain cleanupFailLandWorld).trace = true :=
  land_cleanup_order_and_warnings "gt-e" landFlagsPlain cleanupFailLandWorld epicIssue0 []
    rfl rfl (Or.inl rfl) rfl (Or.inl rfl) rfl rfl rfl rfl (Or.inl rfl)
    (by intro out h; cases h; decide) rfl

/-- C9: when the verification diff command itself fails, the empty-merge
guard does not fire — Land proceeds to the push and, once the push
succeeds, to the branch deletions and the epic close exactly as if
verification had passed. -/
theorem land_diff_error_proceeds (epicID : String) (fl : LandFlags) (w : LandWorld)
    (epic : Issue) (mrs : List Issue)
    (hshow : w.showEpic = some epic)
    (hty : epic.IssueType = "epic")
    (hbr : w.branchExists = Except.ok true ∨
      (w.branchExists = Except.ok false ∧ w.remoteBranchExists = Except.ok true ∧
        w.fetchBranchOk = true))
    (hmrs : w.listMRs = Except.ok mrs)
    (hopen : filterMRsByTarget mrs (landBranchName epic.Description epicID) = [] ∨
      fl.force = true)
    (hdry : fl.dryRun = false)
    (hfetch : w.fetchOk = true)
    (hwt : w.worktreeOk = true)
    (hmerge : w.mergeOk = true)
    (htests : fl.skipTests = true ∨ w.testCommand = "" ∨ w.testsOk = true)
    (hdiff : w.diffOutput = Except.error ())
    (hpush : w.pushOk = true) :
    (runMqIntegrationLand epicID fl w).result = none ∧
    LandEvent.push ∈ (runMqIntegrationLand epicID fl w).trace ∧
    LandEvent.deleteRemote ∈ (runMqIntegrationLand epicID fl w).trace ∧
    LandEvent.deleteLocal ∈ (runMqIntegrationLand epicID fl w).trace ∧
    LandEvent.closeEpic ∈ (runMqIntegrationLand epicID fl w).trace := by
  rcases hbr with hb | ⟨hb1, hb2, hb3⟩ <;>
    rcases hopen with ho | ho <;>
      rcases htests with ht | ht | ht <;>
        by_cases hsk : fl.skipTests = true <;>
          by_cases hcmd : w.testCommand = "" <;>
            simp_all [runMqIntegrationLand, landFromAudit, landInWorktree,
              landPushAndCleanup]

/-- A Land world in which the verification diff command errors out. -/
def diffErrLandWorld : LandWorld :=
  { showEpic := some epicIssue0, branchExists := .ok true, remoteBranchExists := .ok false,
    fetchBranchOk := true, listMRs := .ok [], fetchOk := true, worktreeOk := true,
    pullOk := true, mergeOk := true, testCommand := "", testsOk := true,
    diffOutput := .error (), pushOk := true, deleteRemoteOk := true,
    deleteLocalOk := true, closeOk := true }

theorem land_diff_error_proceeds_witness :
    (runMqIntegrationLand "gt-e" landFlagsPlain diffErrLandWorld).result = none ∧
    LandEvent.push ∈ (runMqIntegrationLand "gt-e" landFlagsPlain diffErrLandWorld).trace ∧
    LandEvent.deleteRemote ∈
      (runMqIntegrationLand "gt-e" landFlagsPlain diffErrLandWorld).trace ∧
    LandEvent.deleteLocal ∈ (runMqIntegrationLand "gt-e" landFlagsPlain diffErrLandWorld).trace ∧
    LandEvent.closeEpic ∈ (runMqIntegrationLand "gt-e" landFlagsPlain diffErrLandWorld).trace :=
  land_diff_error_proceeds "gt-e" landFlagsPlain diffErrLandWorld epicIssue0 []
    rfl rfl (Or.inl rfl) rfl (Or.inl rfl) rfl rfl rfl rfl (Or.inl rfl) rfl rfl

theorem landFromAudit_dryRun_trace (fl : LandFlags) (w : LandWorld) (bn : String)
    (pre : List LandEvent) (hdry : fl.dryRun = true) :
    (landFromAudit fl w bn pre).trace = pre := by
  cases hm : w.listMRs with
  | error e => simp [landFromAudit, hm]
  | ok mrs =>
      simp only [landFromAudit, hm, hdry]
      split_ifs <;> simp

theorem land_dryRun_trace (epicID : String) (fl : LandFlags) (w : LandWorld)
    (hdry : fl.dryRun = true) :
    (runMqIntegrationLand epicID fl w).trace = [] ∨
    (runMqIntegrationLand epicID fl w).trace = [LandEvent.fetchBranch] := by
  unfold runMqIntegrationLand
  cases hs : w.showEpic with
  | none => left; rfl
  | some epic =>
      by_cases hty : epic.IssueType == "epic"
      · simp only [hty, Bool.not_true]
        cases hb : w.branchExists with
        | error e => left; simp
        | ok lb =>
            cases lb
            · cases hr : w.remoteBranchExists with
              | error e => left; simp
              | ok rb =>
                  cases rb
                  · left; simp
                  · cases hf : w.fetchBranchOk
                    · right; simp [hf]
                    · right; simp [hf, landFromAudit_dryRun_trace fl w _ _ hdry]
            · left
              simp [landFromAudit_dryRun_trace fl w _ _ hdry]
      · left; simp [hty]

/-- C8 (amended): with dry run set, Land never merges, never creates the
disposable worktree, never pushes, never deletes a branch and never closes
the epic; and when the epic lookup, the type check, the branch
confirmation and the open-MR audit all pass, it stops right after the
audit with a success result. (A dry-run invocation that fails one of those
earlier checks returns that error instead, still with none of the side
effects.) -/
theorem land_dry_run_no_side_effects (epicID : String) (fl : LandFlags) (w : LandWorld)
    (hdry : fl.dryRun = true) :
    (LandEvent.merge ∉ (runMqIntegrationLand epicID fl w).trace ∧
     LandEvent.createWorktree ∉ (runMqIntegrationLand epicID fl w).trace ∧
     LandEvent.push ∉ (runMqIntegrationLand epicID fl w).trace ∧
     LandEvent.deleteRemote ∉ (runMqIntegrationLand epicID fl w).trace ∧
     LandEvent.deleteLocal ∉ (runMqIntegrationLand epicID fl w).trace ∧
     LandEvent.closeEpic ∉ (runMqIntegrationLand epicID fl w).trace) ∧
    (∀ (epic : Issue) (mrs : List Issue),
      w.showEpic = some epic → epic.IssueType = "epic" →
      (w.branchExists = Except.ok true ∨
        (w.branchExists = Except.ok false ∧ w.remoteBranchExists = Except.ok true ∧
          w.fetchBranchOk = true)) →
      w.listMRs = Except.ok mrs →
      (filterMRsByTarget mrs (landBranchName epic.Description epicID) = [] ∨
        fl.force = true) →
      (runMqIntegrationLand epicID fl w).result = none) := by
  constructor
  · rcases land_dryRun_trace epicID fl w hdry with h | h <;> simp [h]
  · intro epic mrs hshow hty hbr hmrs hopen
    rcases hbr with hb | ⟨hb1, hb2, hb3⟩ <;>
      rcases hopen with ho | ho <;>
        simp_all [runMqIntegrationLand, landFromAudit]

/-- A dry-run Land world whose audit finds no open merge requests. -/
def dryRunCleanLandWorld : LandWorld :=
  { showEpic := some epicIssue0, branchExists := .ok true, remoteBranchExists := .ok false,
    fetchBranchOk := true, listMRs := .ok [], fetchOk := true, worktreeOk := true,
    pullOk := true, mergeOk := true, testCommand := "", testsOk := true,
    diffOutput := .ok "x", pushOk := true, deleteRemoteOk := true,
    deleteLocalOk := true, closeOk := true }

/-- The dry-run Land flags. -/
def landFlagsDry : LandFlags := ⟨false, false, true⟩

theorem land_dry_run_no_side_effects_witness :
    (LandEvent.merge ∉ (runMqIntegrationLand "gt-e" landFlagsDry dryRunCleanLandWorld).trace ∧
     LandEvent.createWorktree ∉
       (runMqIntegrationLand "gt-e" landFlagsDry dryRunCleanLandWorld).trace ∧
     LandEvent.push ∉ (runMqIntegrationLand "gt-e" landFlagsDry dryRunCleanLandWorld).trace ∧
     LandEvent.deleteRemote ∉
       (runMqIntegrationLand "gt-e" landFlagsDry dryRunCleanLandWorld).trace ∧
     LandEvent.deleteLocal ∉
       (runMqIntegrationLand "gt-e" landFlagsDry dryRunCleanLandWorld).trace ∧
     LandEvent.closeEpic ∉
       (runMqIntegrationLand "gt-e" landFlagsDry dryRunCleanLandWorld).trace) ∧
    (runMqIntegrationLand "gt-e" landFlagsDry dryRunCleanLandWorld).result = none :=
  have h := land_dry_run_no_side_effects "gt-e" landFlagsDry dryRunCleanLandWorld rfl
  ⟨h.1, h.2 epicIssue0 [] rfl rfl (Or.inl rfl) rfl (Or.inl rfl)⟩

/-- An open merge request targeting the integration branch of
`epicIssue0` (the default `integration/gt-e`). -/
def openMRIssue0 : Issue :=
  { ID := "gt-mr1", Title := "Merge: polecat/Nux/gt-1", IssueType := "merge-request",
    Status := "open", Parent := "",
    Description := "branch: polecat/Nux/gt-1\ntarget: integration/gt-e",
    Labels := ["gt:merge-request"] }

/-- A dry-run Land world whose audit finds one open merge request
targeting the integration branch. -/
def dryRunPendingLandWorld : LandWorld :=
  { showEpic := some epicIssue0, branchExists := .ok true, remoteBranchExists := .ok false,
    fetchBranchOk := true, listMRs := .ok [openMRIssue0], fetchOk := true, worktreeOk := true,
    pullOk := true, mergeOk := true, testCommand := "", testsOk := true,
    diffOutput := .ok "x", pushOk := true, deleteRemoteOk := true,
    deleteLocalOk := true, closeOk := true }

theorem land_dry_run_counterexample :
    (runMqIntegrationLand "gt-e" landFlagsDry dryRunPendingLandWorld).result =
      some LandErr.pendingMRs ∧
    ¬((runMqIntegrationLand "gt-e" landFlagsDry dryRunPendingLandWorld).result = none) := by
  constructor <;> decide

theorem isPrefixOf_append_self (p r : List Char) : p.isPrefixOf (p ++ r) = true := by
  induction p with
  | nil => simp [List.isPrefixOf]
  | cons c cs ih => simp [List.isPrefixOf, ih]

theorem splitLinesGo_skip_headline (pre : List Char) (hpre : ∀ c ∈ pre, ¬(c = '\n'))
    (l acc : List Char) :
    splitLinesGo (pre ++ l) acc = splitLinesGo l (pre.reverse ++ acc) := by
  induction pre generalizing acc with
  | nil => simp
  | cons c cs ih =>
      have hc : ¬(c = '\n') := hpre c (by simp)
      have hcs : ∀ x ∈ cs, ¬(x = '\n') := fun x hx => hpre x (by simp [hx])
      show splitLinesGo (c :: (cs ++ l)) acc = _
      simp only [splitLinesGo, if_neg hc]
      rw [ih hcs (c :: acc)]
      simp

theorem splitLinesGo_any_of_acc (k : List Char) (rest : List Char) :
    ∀ (acc : List Char), (∃ r, acc.reverse = k ++ r) →
      (splitLinesGo rest acc).any (fun l => k.isPrefixOf l.data) = true := by
  induction rest with
  | nil =>
      rintro acc ⟨r, hr⟩
      simp [splitLinesGo, hr, isPrefixOf_append_self]
  | cons c cs ih =>
      rintro acc ⟨r, hr⟩
      by_cases hc : c = '\n'
      · simp [splitLinesGo, hc, hr, isPrefixOf_append_self]
      · have : (c :: acc).reverse = k ++ (r ++ [c]) := by simp [hr]
        simpa [splitLinesGo, hc] using ih (c :: acc) ⟨r ++ [c], this⟩

/-- Whether some line of a description starts with the `base_branch:`
field key. -/
def hasBaseBranchLine (d : String) : Bool :=
  (splitLinesStr d).any (fun l => startsWithStr l "base_branch:")

theorem hasBaseBranchLine_add (desc v : String) :
    hasBaseBranchLine (AddBaseBranchField desc v) = true := by
  have key : ∀ (x : String), hasBaseBranchLine ("base_branch" ++ ": " ++ x) = true := by
    intro x
    have h1 : ("base_branch" ++ ": " : String) = "base_branch: " := by decide
    unfold hasBaseBranchLine splitLinesStr startsWithStr
    rw [h1, String.data_append,
      splitLinesGo_skip_headline "base_branch: ".data (by decide) x.data []]
    exact splitLinesGo_any_of_acc "base_branch:".data x.data _ ⟨[' '], by simp⟩
  unfold AddBaseBranchField addDescriptionField
  by_cases hd : desc = ""
  · simpa [hd] using key v
  · simp only [if_neg hd]
    by_cases hk : ((splitLinesStr desc).filter
        (fun l => (fieldLineValue "base_branch" l).isNone)).isEmpty
    · simpa [hk] using key v
    · have := key (v ++ ("\n" ++ joinLinesStr ((splitLinesStr desc).filter
        (fun l => (fieldLineValue "base_branch" l).isNone))))
      simpa [hk, String.append_assoc] using this

/-- C3 (amended): for a successful Create whose metadata update is
performed, the written description carries a `base_branch` field line
exactly tracking whether a base-branch override flag was supplied — the
flag value `main` also writes the field, even though the branch is then
created from the default base `origin/main`; with no flag the written
description is exactly the epic description with the
`integration_branch` field added. -/
theorem create_base_branch_field_tracks_flag (epicID baseBranchFlag : String)
    (w : CreateWorld) (epic : Issue)
    (hshow : w.showEpic = some epic)
    (hty : epic.IssueType = "epic")
    (hval : validateBranchName (BuildIntegrationBranchName w.templateResolved epicID) = none)
    (hgit : w.gitOk = true)
    (hbe : w.branchExists = Except.ok false)
    (hre : w.remoteBranchExists = Except.ok false ∨ w.remoteBranchExists = Except.error ())
    (hfetch : w.fetchOk = true)
    (hcreate : w.createBranchOk = true)
    (hpush : w.pushOk = true) :
    (runMqIntegrationCreate epicID baseBranchFlag w).result = none ∧
    (∀ d, (runMqIntegrationCreate epicID baseBranchFlag w).written = some d →
      (¬baseBranchFlag = "" → hasBaseBranchLine d = true) ∧
      (baseBranchFlag = "" →
        d = AddIntegrationBranchField epic.Description
          (BuildIntegrationBranchName w.templateResolved epicID))) := by
  have hvs : (validateBranchName (BuildIntegrationBranchName w.templateResolved epicID)).isSome
      = false := by simp [hval]
  constructor
  · rcases hre with hre | hre <;>
      by_cases hch : createNewDescription epic.Description
          (BuildIntegrationBranchName w.templateResolved epicID) baseBranchFlag
          == epic.Description <;>
        simp [runMqIntegrationCreate, hshow, hty, hvs, hgit, hbe, hre, hfetch, hcreate,
          hpush, hch]
  · have hw : (runMqIntegrationCreate epicID baseBranchFlag w).written = none ∨
        (runMqIntegrationCreate epicID baseBranchFlag w).written =
          some (createNewDescription epic.Description
            (BuildIntegrationBranchName w.templateResolved epicID) baseBranchFlag) := by
      rcases hre with hre | hre <;>
        by_cases hch : createNewDescription epic.Description
            (BuildIntegrationBranchName w.templateResolved epicID) baseBranchFlag
            == epic.Description <;>
          cases hupd : w.updateOk <;>
            simp [runMqIntegrationCreate, hshow, hty, hvs, hgit, hbe, hre, hfetch, hcreate,
              hpush, hch, hupd]
    intro d hd
    rcases hw with hw | hw
    · rw [hw] at hd
      cases hd
    · rw [hw] at hd
      injection hd with hdd
      subst hdd
      constructor
      · intro hflag
        have hu : createNewDescription epic.Description
            (BuildIntegrationBranchName w.templateResolved epicID) baseBranchFlag =
            AddBaseBranchField
              (AddIntegrationBranchField epic.Description
                (BuildIntegrationBranchName w.templateResolved epicID))
              (resolveBaseDisplay baseBranchFlag) := by
          unfold createNewDescription
          simp [hflag]
        rw [hu]
        exact hasBaseBranchLine_add _ _
      · intro hflag
        unfold createNewDescription
        simp [hflag]

/-- A Create world in which every call succeeds. -/
def successfulCreateWorld : CreateWorld :=
  { showEpic := some epicIssue0, templateResolved := "", gitOk := true,
    branchExists := .ok false, remoteBranchExists := .ok false, fetchOk := true,
    createBranchOk := true, pushOk := true, updateOk := true }

theorem create_base_branch_counterexample :
    (runMqIntegrationCreate "gt-e" "main" successfulCreateWorld).result = none ∧
    resolveBaseRef "main" = "origin/main" ∧
    (runMqIntegrationCreate "gt-e" "main" successfulCreateWorld).written =
      some "base_branch: main\nintegration_branch: integration/gt-e" ∧
    hasBaseBranchLine "base_branch: main\nintegration_branch: integration/gt-e" = true := by
  refine ⟨by decide, by decide, by decide, by decide⟩

theorem create_base_branch_field_tracks_flag_witness :
    (runMqIntegrationCreate "gt-e" "develop" successfulCreateWorld).result = none ∧
    hasBaseBranchLine "base_branch: develop\nintegration_branch: integration/gt-e" = true := by
  have h := create_base_branch_field_tracks_flag "gt-e" "develop" successfulCreateWorld
    epicIssue0 rfl rfl (by decide) rfl rfl (Or.inl rfl) rfl rfl rfl
  exact ⟨h.1,
    (h.2 "base_branch: develop\nintegration_branch: integration/gt-e" (by decide)).1
      (by decide)⟩

/-- C10: a failing remote-branch-existence probe in Create is non-fatal —
the branch is treated as absent and Create proceeds to fetch, branch
creation and push; only a successful probe answering that the branch
already exists on origin aborts Create. -/
theorem create_remote_probe_nonfatal (epicID baseBranchFlag : String) (w : CreateWorld)
    (epic : Issue)
    (hshow : w.showEpic = some epic)
    (hty : epic.IssueType = "epic")
    (hval : validateBranchName (BuildIntegrationBranchName w.templateResolved epicID) = none)
    (hgit : w.gitOk = true)
    (hbe : w.branchExists = Except.ok false) :
    (w.remoteBranchExists = Except.error () → w.fetchOk = true → w.createBranchOk = true →
      w.pushOk = true →
      (runMqIntegrationCreate epicID baseBranchFlag w).result = none ∧
      CreateEvent.createBranch ∈ (runMqIntegrationCreate epicID baseBranchFlag w).trace) ∧
    (w.remoteBranchExists = Except.ok true →
      runMqIntegrationCreate epicID baseBranchFlag w =
        ⟨some .branchExistsOnOrigin, [], none⟩) := by
  have hvs : (validateBranchName (BuildIntegrationBranchName w.templateResolved epicID)).isSome
      = false := by simp [hval]
  constructor
  · intro hre hfetch hcreate hpush
    by_cases hch : createNewDescription epic.Description
        (BuildIntegrationBranchName w.templateResolved epicID) baseBranchFlag
        == epic.Description <;>
      cases hupd : w.updateOk <;>
        simp [runMqIntegrationCreate, hshow, hty, hvs, hgit, hbe, hre, hfetch, hcreate,
          hpush, hch, hupd]
  · intro hre
    simp [runMqIntegrationCreate, hshow, hty, hvs, hgit, hbe, hre]

/-- A Create world whose remote-existence probe fails. -/
def probeErrCreateWorld : CreateWorld :=
  { showEpic := some epicIssue0, templateResolved := "", gitOk := true,
    branchExists := .ok false, remoteBranchExists := .error (), fetchOk := true,
    createBranchOk := true, pushOk := true, updateOk := true }

theorem create_remote_probe_nonfatal_witness :
    (runMqIntegrationCreate "gt-e" "" probeErrCreateWorld).result = none ∧
    CreateEvent.createBranch ∈ (runMqIntegrationCreate "gt-e" "" probeErrCreateWorld).trace :=
  (create_remote_probe_nonfatal "gt-e" "" probeErrCreateWorld epicIssue0
    rfl rfl (by decide) rfl rfl).1 rfl rfl rfl rfl

theorem detectGo_walks_past_non_epics (shower : String → Option Issue)
    (checker : BranchChecker) :
    ∀ (fuel : Nat) (id : String),
      (∀ n, n < fuel → ∃ iss, shower (chainWalk shower id n) = some iss ∧
        ¬(iss.IssueType = "epic") ∧ ¬(iss.Parent = "")) →
      detectGo shower checker fuel id = Except.ok "" := by
  intro fuel
  induction fuel with
  | zero => intro id _; rfl
  | succ m ih =>
      intro id h
      obtain ⟨iss, hs, hty, hp⟩ := h 0 (Nat.succ_pos m)
      simp only [chainWalk] at hs
      simp only [detectGo, hs, if_neg hty, if_neg hp]
      apply ih
      intro n hn
      have h2 := h (n + 1) (by omega)
      simp only [chainWalk, stepParent, hs] at h2 ⊢
      exact h2

/-- C6: the MR target resolver is a total function of the issue graph
(termination holds for every graph, cyclic parent chains included, by the
fuel bound), and whenever the first 11 issues on the parent chain — the
origin plus 10 parent hops — are present, are not epics, and have a
parent, it returns the empty result: an epic reachable only beyond depth
10 is never returned. -/
theorem detect_integration_branch_depth_bound (shower : String → Option Issue)
    (checker : BranchChecker) (issueID : String)
    (h : ∀ n, n < 11 → ∃ iss, shower (chainWalk shower issueID n) = some iss ∧
      ¬(iss.IssueType = "epic") ∧ ¬(iss.Parent = "")) :
    DetectIntegrationBranch shower checker issueID = Except.ok "" :=
  detectGo_walks_past_non_epics shower checker 11 issueID h

/-- The issue at position `i` of a 12-long parent chain whose only epic —
carrying an existing integration branch — sits at position 11, one hop
beyond the resolver depth bound. -/
def deepChainIssue (i : Nat) : Issue :=
  { ID := "gt-" ++ toString i, Title := "",
    IssueType := if i = 11 then "epic" else "task",
    Status := "open",
    Parent := if i = 11 then "" else "gt-" ++ toString (i + 1),
    Description := if i = 11 then "integration_branch: deep/branch" else "",
    Labels := [] }

/-- The issue store of the 12-long chain. -/
def deepChainShower : String → Option Issue := fun id =>
  (List.range 12).findSome? (fun i =>
    if id = "gt-" ++ toString i then some (deepChainIssue i) else none)

/-- A branch oracle on which `deep/branch` exists locally. -/
def deepChainChecker : BranchChecker :=
  { BranchExists := fun n => .ok (n == "deep/branch"),
    RemoteBranchExists := fun _ _ => .ok false }

theorem detect_integration_branch_depth_bound_witness :
    DetectIntegrationBranch deepChainShower deepChainChecker "gt-0" = Except.ok "" :=
  detect_integration_branch_depth_bound deepChainShower deepChainChecker "gt-0"
    (by
      intro n hn
      interval_cases n <;> exact ⟨_, rfl, by decide, by decide⟩)

/-- The bug-816 shape: an issue carrying the authoritative
`gt:merge-request` label and a matching `target:` field, but with the
default `type` value `task`. -/
def labelledTaskMR : Issue :=
  { ID := "gt-mr2", Title := "Merge: polecat/Toast/gt-2", IssueType := "task",
    Status := "open", Parent := "",
    Description := "branch: polecat/Toast/gt-2\ntarget: integration/gt-e",
    Labels := ["gt:merge-request"] }

/-- An issue with `type` `merge-request` but without the
`gt:merge-request` label. -/
def typedUnlabelledMR : Issue :=
  { ID := "gt-mr3", Title := "Merge: polecat/Able/gt-3", IssueType := "merge-request",
    Status := "open", Parent := "",
    Description := "branch: polecat/Able/gt-3\ntarget: integration/gt-e",
    Labels := [] }

/-- C1: the code selects merge requests by the issue `type` field, not by
the `gt:merge-request` label. An issue that carries the label and a
matching `target:` field but has type `task` is omitted from both the Land
open-MR audit and the Status snapshot, while an unlabelled issue of type
`merge-request` is selected — evaluating the embedded code at the failing
input of the claim. -/
theorem mr_selection_by_type_not_label :
    HasLabel labelledTaskMR "gt:merge-request" = true ∧
    ParseMRFields labelledTaskMR =
      some ⟨"polecat/Toast/gt-2", "integration/gt-e"⟩ ∧
    findOpenMRsForIntegration [labelledTaskMR] "integration/gt-e" = [] ∧
    statusMRPartition [labelledTaskMR] "integration/gt-e" = ([], []) ∧
    HasLabel typedUnlabelledMR "gt:merge-request" = false ∧
    findOpenMRsForIntegration [typedUnlabelledMR] "integration/gt-e" =
      [typedUnlabelledMR] := by
  refine ⟨by decide, by decide, by decide, by decide, by decide, by decide⟩

end Gastown
